import Mathlib

/-!
Verification of the resource-extraction-and-assembly pipeline in `cx.js`
(Liferay-Client-Extension-URL-Extractor).

The JavaScript source is shallowly embedded: every definition below is a
direct translation of a function or constant of `src/cx.js` (line numbers
cited in the doc comments), except the `spec…` definitions, which are
clearly marked as transcriptions of the natural-language specification and
exist only to be compared with the source-derived definitions.

External collaborators (the HTTP transport, the HTML parser, the URL
resolver, the interactive prompt service and the YAML serializer) are
modelled as explicit function parameters, following the specification's own
component boundaries.
-/

/-- ASCII whitespace, the characters matched by the regular expression
class `\s` in `slugify` (`cx.js:83`) for ASCII input. -/
def isWs (c : Char) : Bool :=
  c = ' ' || c = '\t' || c = '\n' || c = '\r' || c = '\x0b' || c = '\x0c'

/-- The characters kept by the second `replace` of `slugify` (`cx.js:84`):
the complement of the regex class `[^a-z0-9\-]` that is deleted. -/
def isAllowed (c : Char) : Bool :=
  ('a' ≤ c && c ≤ 'z') || ('0' ≤ c && c ≤ '9') || c = '-'

/-- `name.toLowerCase()` (`cx.js:82`), character-wise lowercasing. -/
def lowerData (s : String) : List Char :=
  s.data.map Char.toLower

/-- `.replace(/\s+/g, '-')` (`cx.js:83`): each maximal run of whitespace
characters is replaced by a single hyphen.  The recursion emits the hyphen
at the end of each run, mirroring the regex's maximal munch. -/
def collapseRuns : List Char → List Char
  | [] => []
  | [c] => if isWs c then ['-'] else [c]
  | c :: d :: rest =>
    if isWs c then
      if isWs d then collapseRuns (d :: rest)
      else '-' :: collapseRuns (d :: rest)
    else c :: collapseRuns (d :: rest)

/-- State-machine formulation of whitespace-run collapsing: the flag
records whether the previous character belonged to a whitespace run. -/
def collapseWsAux : Bool → List Char → List Char
  | _, [] => []
  | prevWs, c :: rest =>
    if isWs c then
      if prevWs then collapseWsAux true rest else '-' :: collapseWsAux true rest
    else c :: collapseWsAux false rest

/-- Remove leading and trailing whitespace of a character list. -/
def trimWs (l : List Char) : List Char :=
  ((l.dropWhile isWs).reverse.dropWhile isWs).reverse

/-- `slugify(name, suffix)` (`cx.js:79-86`): lowercase, replace every
maximal whitespace run by `-`, delete every character outside
`[a-z0-9-]`, and append `-<suffix>`. -/
def slugify (name suffix : String) : String :=
  String.mk ((collapseRuns (lowerData name)).filter isAllowed) ++ "-" ++ suffix

/-- Transcribed from the specification's slug rule read literally:
lowercase, collapse only the *internal* whitespace runs to single hyphens,
then strip all characters outside `[a-z0-9-]` (which removes the remaining
leading/trailing whitespace), and append the class suffix.  Collapsing
internal runs only and stripping edge whitespace afterwards is the same as
trimming first and then collapsing every run. -/
def specSlugInternal (name suffix : String) : String :=
  String.mk ((collapseWsAux false (trimWs (lowerData name))).filter isAllowed) ++ "-" ++ suffix

/-- Transcribed from the amended slug rule: lowercase, collapse *every*
maximal whitespace run (leading and trailing ones included) to a single
hyphen, strip all characters outside `[a-z0-9-]`, append the suffix. -/
def specSlugAll (name suffix : String) : String :=
  String.mk ((collapseWsAux false (lowerData name)).filter isAllowed) ++ "-" ++ suffix

/-- The two resource classes of the pipeline; the source carries them as
the strings `'css'` and `'js'` (`cx.js:36,310-314`). -/
inductive Mode
  | css
  | js
deriving DecidableEq, Repr

/-- The string the source uses for a mode, e.g. as the slug suffix in
`slugify(visibleName, currentMode)` (`cx.js:288`). -/
def modeSuffix : Mode → String
  | .css => "css"
  | .js => "js"

/-- Value of one `scriptElementAttributes` entry (`cx.js:69-74`): the
`async` attribute is the boolean `true`, the others are strings. -/
inductive AttrVal
  | boolV (b : Bool)
  | strV (s : String)
deriving DecidableEq, Repr

/-- Per-mode configuration `MODES` (`cx.js:61-76`).  The `css` entry has
no `scriptElementAttributes` key, modelled as `none`. -/
structure ModeConfig where
  fileName : String
  yamlType : String
  scriptElementAttributes : Option (List (String × AttrVal))
deriving DecidableEq, Repr

def MODES : Mode → ModeConfig
  | .css => ⟨"global.css", "globalCSS", none⟩
  | .js =>
    ⟨"global.js", "globalJS",
      some
        [("async", AttrVal.boolV true), ("data-attribute", AttrVal.strV "value"),
          ("data-senna-track", AttrVal.strV "permanent"),
          ("fetchpriority", AttrVal.strV "low")]⟩

/-- One element handle of the parsed page, as exposed by the markup-query
interface the discoverer uses (`cheerio` in the source): tag name,
attribute list, inner text.  `cx.js:103-134`. -/
structure Element where
  tagName : String
  attrs : List (String × String)
  innerHtml : String
deriving DecidableEq, Repr

/-- `$(el).attr(name)` — first attribute with the given name, if any. -/
def getAttr (el : Element) (name : String) : Option String :=
  (el.attrs.find? (fun p => p.1 == name)).map (fun p => p.2)

/-- JavaScript truthiness of an optional string: `undefined` and the empty
string are falsy (used for `if (href)` at `cx.js:106` and `if (src)` at
`cx.js:121`). -/
def strTruthy : Option String → Bool
  | none => false
  | some s => !(s == "")

/-- `content?.trim()` is falsy exactly when the content is all
whitespace (`cx.js:126`). -/
def blank (s : String) : Bool :=
  s.data.all isWs

/-- One discovered resource reference (`cx.js:108,111,123,127`): external
entries carry `label` and `url` (the resolved absolute URL, identical in
the source), inline entries carry `label` and `content`. -/
inductive Resource
  | external (label url : String)
  | inline (label content : String)
deriving DecidableEq, Repr

/-- `label` field of a pushed resource object. -/
def Resource.label : Resource → String
  | .external l _ => l
  | .inline l _ => l

/-- In every resource the source pushes, an external reference's label is
the same string as its url (`cx.js:108,123`). -/
def labelMatchesUrl : Resource → Bool
  | .external l u => l == u
  | .inline _ _ => true

/-- The selector `'link[rel="stylesheet"], style'` (`cx.js:103`). -/
def matchesCssSelector (el : Element) : Bool :=
  (el.tagName == "link" && getAttr el "rel" == some "stylesheet") || el.tagName == "style"

/-- CSS branch of `parseResources` (`cx.js:102-117`): walk the matching
elements in document order, threading the 1-based inline counter.
`resolve href baseUrl` models `new URL(href, baseUrl).href`. -/
def parseCssList (resolve : String → String → String) (baseUrl : String) :
    List Element → Nat → List Resource
  | [], _ => []
  | el :: rest, counter =>
    if matchesCssSelector el then
      if el.tagName == "link" then
        if strTruthy (getAttr el "href") then
          Resource.external (resolve ((getAttr el "href").getD "") baseUrl)
              (resolve ((getAttr el "href").getD "") baseUrl) ::
            parseCssList resolve baseUrl rest counter
        else parseCssList resolve baseUrl rest counter
      else
        Resource.inline ("<style> inline #" ++ toString counter) el.innerHtml ::
          parseCssList resolve baseUrl rest (counter + 1)
    else parseCssList resolve baseUrl rest counter

/-- JS branch of `parseResources` (`cx.js:118-135`): every `<script>`
element; truthy `src` gives an external reference, otherwise the element
is inline and is kept only when its content is non-blank. -/
def parseJsList (resolve : String → String → String) (baseUrl : String) :
    List Element → Nat → List Resource
  | [], _ => []
  | el :: rest, counter =>
    if el.tagName == "script" then
      if strTruthy (getAttr el "src") then
        Resource.external (resolve ((getAttr el "src").getD "") baseUrl)
            (resolve ((getAttr el "src").getD "") baseUrl) ::
          parseJsList resolve baseUrl rest counter
      else
        if blank el.innerHtml then parseJsList resolve baseUrl rest counter
        else
          Resource.inline ("<script> inline #" ++ toString counter) el.innerHtml ::
            parseJsList resolve baseUrl rest (counter + 1)
    else parseJsList resolve baseUrl rest counter

/-- `parseResources(html, baseUrl, currentMode)` (`cx.js:97-138`), over
the list of element handles of the parsed markup. -/
def parseResources (resolve : String → String → String) (doc : List Element)
    (baseUrl : String) (mode : Mode) : List Resource :=
  match mode with
  | .css => parseCssList resolve baseUrl doc 1
  | .js => parseJsList resolve baseUrl doc 1

/-- Number of elements of a CSS document segment that consume an inline
counter value (the matched `<style>` elements). -/
def countCssInline (els : List Element) : Nat :=
  els.countP (fun el => matchesCssSelector el && !(el.tagName == "link"))

/-- Number of elements of a JS document segment that consume an inline
counter value (`<script>` without truthy `src` and with non-blank body). -/
def countJsInline (els : List Element) : Nat :=
  els.countP
    (fun el => el.tagName == "script" && !(strTruthy (getAttr el "src")) && !(blank el.innerHtml))

/-- Fallback used to model the JavaScript `resources[parseInt(i, 10)]`
indexing (`cx.js:168`); with in-range indices it is never produced. -/
def dfltResource : Resource := Resource.inline "" ""

/-- `promptSelection(resources, currentMode, includeAllFlag)`
(`cx.js:140-169`).  The interactive `checkbox` service is abstracted: it
is handed one checkable item per resource (value `i.toString()`), and its
reply is the list `serviceChoices` of chosen indices, which the source
maps back over `resources` in the order the service reports them. -/
def promptSelection (resources : List Resource) (includeAllFlag : Bool)
    (serviceChoices : List Nat) : List Resource :=
  if includeAllFlag then resources
  else
    if serviceChoices.length = 0 then []
    else serviceChoices.map (fun i => resources.getD i dfltResource)

/-- The Selection Gate stage as executed by the pipeline: `runOnce` returns
before prompting when discovery found nothing (`cx.js:259-266`), otherwise
it runs `promptSelection`.  The boolean records whether the external
checkbox service is awaited on that path (it is exactly when the guard
passed and `--all` is not set, `cx.js:141,150`). -/
def gateStage (found : List Resource) (includeAllFlag : Bool)
    (serviceChoices : List Nat) : List Resource × Bool :=
  if found.length = 0 then ([], false)
  else (promptSelection found includeAllFlag serviceChoices, !includeAllFlag)

/-- One arm of the `Promise.all` fan-out of `downloadResources`
(`cx.js:173-193`): externals are fetched through the transport `net`
(success body or failure message), inline content is passed through; a
failed external yields the empty string. -/
def resolveOne (net : String → Except String String) : Resource → String
  | .external _ url =>
    match net url with
    | .ok body => "/* " ++ url ++ " */\n" ++ body
    | .error _ => ""
  | .inline label content => "/* " ++ label ++ " */\n" ++ content

/-- Whether resolving the reference fails (the `catch` path of
`cx.js:181-188`). -/
def fetchFails (net : String → Except String String) : Resource → Bool
  | .external _ url =>
    match net url with
    | .ok _ => false
    | .error _ => true
  | .inline _ _ => false

/-- The warnings `console.warn` surfaces during resolution, one per failed
external fetch (`cx.js:182-186`), in order. -/
def warnings (net : String → Except String String) (rs : List Resource) : List String :=
  rs.filterMap fun r =>
    match r with
    | .external _ url =>
      match net url with
      | .ok _ => none
      | .error e => some ("Failed to load " ++ url ++ ": " ++ e)
    | .inline _ _ => none

/-- The per-reference fragments assembled by `Promise.all`
(`cx.js:172-194`): one result per input, in input order. -/
def downloadFragments (net : String → Except String String) (rs : List Resource) :
    List String :=
  rs.map (resolveOne net)

/-- `Array.prototype.join(sep)`: elements separated by `sep`. -/
def joinSep (sep : String) : List String → String
  | [] => ""
  | [x] => x
  | x :: y :: xs => x ++ sep ++ joinSep sep (y :: xs)

/-- `downloadResources(resources)` (`cx.js:171-197`):
`results.join('\n\n')` over the fragments. -/
def downloadResources (net : String → Except String String) (rs : List Resource) : String :=
  joinSep "\n\n" (downloadFragments net rs)

/-- Completion-timing model for the `Promise.all` fan-in: slots are
allocated up front and each fetch writes its own slot when it settles, in
the order given by `order`. -/
def fillSlots (n : Nat) (frags : List String) (order : List Nat) : List String :=
  order.foldl (fun acc i => acc.set i (frags.getD i "")) (List.replicate n "")

/-- `assemble` instruction entry `{from: 'assets', into: 'static'}`
(`cx.js:201`); `from` is a Lean keyword, hence the underscore. -/
structure AssembleInst where
  from_ : String
  into : String
deriving DecidableEq, Repr

/-- The object stored under the technical-name key of the manifest
(`cx.js:202-206,209-211`). -/
structure CxEntry where
  name : String
  type : String
  url : String
  scriptElementAttributes : Option (List (String × AttrVal))
deriving DecidableEq, Repr

/-- A top-level value of the manifest document. -/
inductive TopVal
  | assembleV (l : List AssembleInst)
  | entryV (e : CxEntry)
deriving DecidableEq, Repr

/-- `generateYaml(technicalName, visibleName, currentMode, fileName)`
(`cx.js:199-215`) before serialization: the structured document, as an
ordered association list of its top-level keys.  (In every run the
technical name ends in `-css`/`-js`, so it never collides with the
`assemble` key.) -/
def generateYaml (technicalName visibleName : String) (currentMode : Mode)
    (fileName : String) : List (String × TopVal) :=
  [("assemble", TopVal.assembleV [⟨"assets", "static"⟩]),
    (technicalName,
      TopVal.entryV
        ⟨visibleName, (MODES currentMode).yamlType, fileName,
          if currentMode = Mode.js then (MODES Mode.js).scriptElementAttributes else none⟩)]

/-- `path.join` of two segments. -/
def joinPath (a b : String) : String := a ++ "/" ++ b

/-- `OUTPUT_DIR` (`cx.js:56`), relative to the script directory. -/
def OUTPUT_DIR : String := "output"

/-- `TEMP_DIR` (`cx.js:57`). -/
def TEMP_DIR : String := joinPath OUTPUT_DIR "temp"

/-- `ASSETS_DIR` (`cx.js:58`). -/
def ASSETS_DIR : String := joinPath TEMP_DIR "assets"

/-- One filesystem/console effect of the packager.  `removeTreeForce`
stands for `fs.rmSync(p, {recursive: true, force: true})`, which by its
`force` flag does not error when the tree is absent; `writeZip` carries
the archive's entry list (entry name, contents). -/
inductive FsOp
  | mkdirRec (p : String)
  | writeFile (p : String) (contents : String)
  | writeZip (p : String) (entries : List (String × String))
  | removeTreeForce (p : String)
  | advisory (msg : String)
deriving DecidableEq, Repr

/-- `saveFiles(fileName, content, yamlContent, technicalName, noZipFlag)`
(`cx.js:217-246`) as the ordered list of effects it performs.
`zip.addLocalFile(filePath, 'assets')` stores the content file under the
`assets/` entry, `zip.addLocalFile(yamlPath)` stores the manifest at the
archive root. -/
def saveFiles (fileName content yamlContent technicalName : String)
    (noZipFlag : Bool) : List FsOp :=
  [FsOp.mkdirRec ASSETS_DIR,
    FsOp.writeFile (joinPath ASSETS_DIR fileName) content,
    FsOp.writeFile (joinPath TEMP_DIR "client-extension.yaml") yamlContent] ++
  (if !noZipFlag then
    [FsOp.writeZip (joinPath OUTPUT_DIR (technicalName ++ ".zip"))
        [(joinPath "assets" fileName, content), ("client-extension.yaml", yamlContent)],
      FsOp.removeTreeForce TEMP_DIR]
  else
    [FsOp.advisory "running both modes without --mode will overwrite temp/ on the second run"])

/-- `fetchPage(targetUrl)` (`cx.js:88-95`): a single `axios.get` through
the transport `net`; on failure the transport error is wrapped in
`Failed to fetch page: …` and rethrown. -/
def fetchPage (net : String → Except String String) (targetUrl : String) :
    Except String String :=
  match net targetUrl with
  | .ok d => .ok d
  | .error e => .error ("Failed to fetch page: " ++ e)

/-- The URLs `fetchPage` requests from the transport: the one
`axios.get(targetUrl)` of its `try` block (`cx.js:90`) — a single
attempt, there is no retry path in the function. -/
def fetchPageAttempts (targetUrl : String) : List String := [targetUrl]

/-- Result of one `runOnce` pipeline run (`cx.js:249-306`): the thrown
page-level fetch error, one of the two informational early returns
(`cx.js:259-266` and `cx.js:269`), or the produced artifact effects. -/
inductive RunOutcome
  | fetchFailed (msg : String)
  | noResources
  | nothingSelected
  | produced (ops : List FsOp)
deriving DecidableEq, Repr

/-- Whether the outcome produced a packaged artifact. -/
def RunOutcome.producesArtifact : RunOutcome → Bool
  | .produced _ => true
  | _ => false

/-- Whether the outcome is an error for the resource-class run (only the
page-level fetch failure is; the two empty outcomes exit with status 0,
`cx.js:259-269` and §6 of the spec). -/
def RunOutcome.isError : RunOutcome → Bool
  | .fetchFailed _ => true
  | _ => false

/-- `runOnce(targetUrl, currentMode, sharedVisibleName)` (`cx.js:249-306`).
External collaborators are parameters: `net` is the HTTP transport (used
for the page and for resource downloads), `loadHtml` the markup parser
(`cheerio.load`), `resolve` the URL resolver, `promptedName` the reply of
the interactive name prompt (used when the shared name is falsy),
`serviceChoices` the checkbox service's reply and `stringifyYaml` the YAML
serializer. -/
def runOnce (net : String → Except String String) (loadHtml : String → List Element)
    (resolve : String → String → String)
    (stringifyYaml : List (String × TopVal) → String) (targetUrl : String)
    (mode : Mode) (sharedVisibleName : Option String) (promptedName : String)
    (includeAllFlag : Bool) (serviceChoices : List Nat) (noZipFlag : Bool) :
    RunOutcome :=
  match fetchPage net targetUrl with
  | .error e => .fetchFailed e
  | .ok html =>
    let found := parseResources resolve (loadHtml html) targetUrl mode
    if found.length = 0 then .noResources
    else
      let selected := promptSelection found includeAllFlag serviceChoices
      if selected.length = 0 then .nothingSelected
      else
        let visibleName :=
          if strTruthy sharedVisibleName then sharedVisibleName.getD "" else promptedName
        let technicalName := slugify visibleName (modeSuffix mode)
        let fileName := (MODES mode).fileName
        let combined := downloadResources net selected
        let yamlContent := stringifyYaml (generateYaml technicalName visibleName mode fileName)
        .produced (saveFiles fileName combined yamlContent technicalName noZipFlag)

/-- Concrete transport for witnesses: every request fails. -/
def netDown : String → Except String String := fun _ => .error "ECONNREFUSED"

/-- Concrete transport for witnesses: the page loads, `https://a.css`
resolves, everything else fails. -/
def netPartial : String → Except String String := fun u =>
  if u = "https://site.example/" then .ok "<html></html>"
  else if u = "https://a.css" then .ok "body { color: red }"
  else .error "404"

/-- Concrete markup parser for witnesses: an empty document. -/
def loadHtml0 : String → List Element := fun _ => []

/-- Concrete URL resolver for witnesses: already-absolute locators pass
through unchanged. -/
def resolveId : String → String → String := fun href _ => href

/-- Concrete YAML serializer stub for witnesses. -/
def stringify0 : List (String × TopVal) → String := fun _ => "yaml"

/-- Concrete resources for the selection-gate theorems. -/
def resA : Resource := Resource.external "https://a.css" "https://a.css"

def resB : Resource := Resource.external "https://b.css" "https://b.css"

def resC : Resource := Resource.inline "<style> inline #1" "body { margin: 0 }"

/-- Concrete markup parser for witnesses: a single stylesheet link whose
target the transport fails to serve. -/
def loadHtmlFail : String → List Element := fun _ =>
  [⟨"link", [("rel", "stylesheet"), ("href", "https://b.css")], ""⟩]

/-- A `<script>` element whose `src` attribute is present but empty and
whose body is non-blank. -/
def scriptEmptySrc : Element := ⟨"script", [("src", "")], "alert(1)"⟩

/-! ## Helper lemmas -/

theorem collapseRuns_eq_aux : ∀ l : List Char, collapseRuns l = collapseWsAux false l := by
  intro l
  induction l with
  | nil => rfl
  | cons c rest ih =>
    cases rest with
    | nil =>
      by_cases h : isWs c = true <;> simp [collapseRuns, collapseWsAux, h]
    | cons d rest' =>
      by_cases hc : isWs c = true
      · by_cases hd : isWs d = true
        · simp only [collapseRuns, hc, hd, if_true]
          rw [ih]
          simp [collapseWsAux, hd, hc]
        · simp only [collapseRuns, hc, hd, if_true, if_false]
          rw [ih]
          simp [collapseWsAux, hd, hc]
      · simp only [collapseRuns, hc, if_false]
        rw [ih]
        simp [collapseWsAux, hc]

theorem ws_toLower {c : Char} (h : isWs c = true) : c.toLower = c := by
  simp only [isWs, Bool.or_eq_true, decide_eq_true_eq] at h
  rcases h with ((((h | h) | h) | h) | h) | h <;> subst h <;> decide

theorem collapseWsAux_no_ws {l : List Char} (h : ∀ c ∈ l, isWs c = false) :
    ∀ b, collapseWsAux b l = l := by
  induction l with
  | nil => intro b; rfl
  | cons c rest ih =>
    intro b
    have hc : isWs c = false := h c (List.mem_cons_self c rest)
    have hrest : ∀ c ∈ rest, isWs c = false := fun d hd => h d (List.mem_cons_of_mem c hd)
    simp [collapseWsAux, hc, ih hrest false]

/-! ## C1: the technical identifier slug -/

/-- C1 (counterexample): on a visible name with leading and trailing
whitespace, the source's `slugify` disagrees with the slug the claim
describes (internal whitespace runs collapsed, everything outside
`[a-z0-9-]` stripped): the code turns the leading and trailing runs into
hyphens instead of stripping them. -/
theorem claim_C1_counterexample :
    slugify " My Site " "css" = "-my-site--css" ∧
    specSlugInternal " My Site " "css" = "my-site-css" ∧
    slugify " My Site " "css" ≠ specSlugInternal " My Site " "css" := by
  decide

/-- C1 (amended): for every visible name and class suffix, the technical
identifier equals the deterministic slug obtained by lowercasing,
collapsing *every* maximal whitespace run (leading and trailing runs
included) to a single hyphen, stripping all characters outside
`[a-z0-9-]`, and appending `-css`/`-js`; computing it twice on identical
inputs yields identical output, and `"My Cool Site!"` with class `css`
yields `"my-cool-site-css"`. -/
theorem claim_C1_thm :
    (∀ name suffix : String, slugify name suffix = specSlugAll name suffix) ∧
    (∀ name suffix : String, slugify name suffix = slugify name suffix) ∧
    slugify "My Cool Site!" "css" = "my-cool-site-css" := by
  refine ⟨?_, fun _ _ => rfl, by decide⟩
  intro name suffix
  unfold slugify specSlugAll
  rw [collapseRuns_eq_aux]

/-! ## C10: leading/trailing whitespace and all-stripped names -/

/-- C10: `slugify` turns every maximal whitespace run into a hyphen before
stripping, including leading and trailing runs — `" My Site "` with class
`css` yields `"-my-site--css"`, any name starting with whitespace yields
an identifier starting with `-`, and a name consisting entirely of
stripped characters (neither whitespace nor in `[a-z0-9-]` after
lowercasing) yields the bare suffixed identifier, not an error. -/
theorem claim_C10_thm :
    slugify " My Site " "css" = "-my-site--css" ∧
    (∀ (name suffix : String) (c : Char) (rest : List Char),
      name.data = c :: rest → isWs c = true →
      (slugify name suffix).data.head? = some '-') ∧
    (∀ name suffix : String,
      (∀ c ∈ lowerData name, isWs c = false ∧ isAllowed c = false) →
      slugify name suffix = "-" ++ suffix) ∧
    slugify "!!!" "css" = "-css" ∧ slugify "(@_@)" "js" = "-js" := by
  refine ⟨by decide, ?_, ?_, by decide, by decide⟩
  · intro name suffix c rest hdata hws
    unfold slugify lowerData
    rw [hdata]
    simp only [List.map_cons, ws_toLower hws, collapseRuns_eq_aux]
    simp only [collapseWsAux, hws, if_true]
    have hall : isAllowed '-' = true := by decide
    simp [List.filter_cons, hall]
  · intro name suffix h
    unfold slugify
    rw [collapseRuns_eq_aux,
      collapseWsAux_no_ws (fun c hc => (h c hc).1) false,
      List.filter_eq_nil_iff.mpr (fun c hc => by simp [(h c hc).2])]
    rfl

/-- C10 (witness): the general parts of `claim_C10_thm` evaluated at
concrete inputs. -/
theorem claim_C10_witness :
    (slugify " abc" "css").data.head? = some '-' ∧ slugify "!!!" "js" = "-js" :=
  ⟨claim_C10_thm.2.1 " abc" "css" ' ' ['a', 'b', 'c'] (by decide) (by decide),
    claim_C10_thm.2.2.1 "!!!" "js" (by decide)⟩

/-! ## C7: shape of the built manifest document -/

/-- C7: for every technical identifier, visible name, resource class and
output file name, the built manifest document consists of the top-level
`assemble` instruction `[{from: assets, into: static}]` plus exactly one
further entry, keyed by the technical identifier, containing
`{name, type, url}` with `type` `globalCSS`/`globalJS` per class; the
entry carries exactly the fixed attribute set for the script class and no
extra attributes for the style class. -/
theorem claim_C7_thm :
    ∀ (technicalName visibleName fileName : String) (mode : Mode),
      (generateYaml technicalName visibleName mode fileName).length = 2 ∧
      (generateYaml technicalName visibleName mode fileName).head? =
        some ("assemble", TopVal.assembleV [⟨"assets", "static"⟩]) ∧
      ∃ e : CxEntry,
        (generateYaml technicalName visibleName mode fileName)[1]? =
          some (technicalName, TopVal.entryV e) ∧
        e.name = visibleName ∧ e.url = fileName ∧
        e.type = (match mode with | .css => "globalCSS" | .js => "globalJS") ∧
        e.scriptElementAttributes =
          (match mode with
            | .css => none
            | .js =>
              some
                [("async", AttrVal.boolV true), ("data-attribute", AttrVal.strV "value"),
                  ("data-senna-track", AttrVal.strV "permanent"),
                  ("fetchpriority", AttrVal.strV "low")]) := by
  intro technicalName visibleName fileName mode
  cases mode <;> exact ⟨rfl, rfl, _, rfl, rfl, rfl, rfl, rfl⟩

/-! ## C8: packager effects -/

/-- C8: the packager always writes the merged content under the staging
assets directory and the manifest under the staging root; with
`skipArchive` false it writes exactly one archive,
`<technicalId>.zip` in the output root, whose entries are the content
file under `assets/` and the manifest at the root, and then force-deletes
the staging tree (deletion that does not error when the tree is absent);
with `skipArchive` true it performs no archive write and no deletion and
emits the shared-staging overwrite advisory. -/
theorem claim_C8_thm :
    ∀ (fileName content yamlContent technicalName : String) (noZipFlag : Bool)
      (ops : List FsOp),
      ops = saveFiles fileName content yamlContent technicalName noZipFlag →
      FsOp.writeFile (joinPath ASSETS_DIR fileName) content ∈ ops ∧
      FsOp.writeFile (joinPath TEMP_DIR "client-extension.yaml") yamlContent ∈ ops ∧
      (noZipFlag = false →
        FsOp.writeZip (joinPath OUTPUT_DIR (technicalName ++ ".zip"))
            [(joinPath "assets" fileName, content), ("client-extension.yaml", yamlContent)] ∈
          ops ∧
        (∀ p es, FsOp.writeZip p es ∈ ops →
          p = joinPath OUTPUT_DIR (technicalName ++ ".zip") ∧
          es = [(joinPath "assets" fileName, content), ("client-extension.yaml", yamlContent)]) ∧
        FsOp.removeTreeForce TEMP_DIR ∈ ops) ∧
      (noZipFlag = true →
        (∀ p es, FsOp.writeZip p es ∉ ops) ∧
        (∀ p, FsOp.removeTreeForce p ∉ ops) ∧
        FsOp.advisory "running both modes without --mode will overwrite temp/ on the second run" ∈
          ops) := by
  intro fileName content yamlContent technicalName noZipFlag ops hops
  subst hops
  cases noZipFlag with
  | false =>
    refine ⟨by simp [saveFiles], by simp [saveFiles],
      fun _ => ⟨by simp [saveFiles], ?_, by simp [saveFiles]⟩, by simp⟩
    intro p es hmem
    simpa [saveFiles] using hmem
  | true =>
    refine ⟨by simp [saveFiles], by simp [saveFiles], by simp,
      fun _ => ⟨?_, ?_, by simp [saveFiles]⟩⟩
    · intro p es
      simp [saveFiles]
    · intro p
      simp [saveFiles]

/-- C8 (witness): the packager's effects at concrete inputs, with and
without archiving. -/
theorem claim_C8_witness :
    FsOp.removeTreeForce TEMP_DIR ∈ saveFiles "global.css" "body{}" "y:" "site-css" false ∧
    (∀ p es, FsOp.writeZip p es ∉ saveFiles "global.css" "body{}" "y:" "site-css" true) :=
  ⟨((claim_C8_thm "global.css" "body{}" "y:" "site-css" false _ rfl).2.2.1 rfl).2.2,
    ((claim_C8_thm "global.css" "body{}" "y:" "site-css" true _ rfl).2.2.2 rfl).1⟩

/-! ## C9: page-level fetch failure -/

/-- C9: on any transport failure while fetching the target page, the run
raises the page fetch error wrapping the underlying transport error,
exactly one fetch attempt is made for the page (no retry), and the
resource-class run aborts with no artifact produced. -/
theorem claim_C9_thm :
    ∀ (net : String → Except String String) (loadHtml : String → List Element)
      (resolve : String → String → String)
      (stringifyYaml : List (String × TopVal) → String) (targetUrl : String)
      (mode : Mode) (sharedVisibleName : Option String) (promptedName : String)
      (includeAllFlag : Bool) (serviceChoices : List Nat) (noZipFlag : Bool)
      (e : String),
      net targetUrl = .error e →
      runOnce net loadHtml resolve stringifyYaml targetUrl mode sharedVisibleName
          promptedName includeAllFlag serviceChoices noZipFlag =
        .fetchFailed ("Failed to fetch page: " ++ e) ∧
      (runOnce net loadHtml resolve stringifyYaml targetUrl mode sharedVisibleName
          promptedName includeAllFlag serviceChoices noZipFlag).producesArtifact = false ∧
      fetchPage net targetUrl = .error ("Failed to fetch page: " ++ e) ∧
      fetchPageAttempts targetUrl = [targetUrl] := by
  intro net loadHtml resolve stringifyYaml targetUrl mode shared prompted flag cs nz e h
  have hf : fetchPage net targetUrl = .error ("Failed to fetch page: " ++ e) := by
    simp [fetchPage, h]
  have hr : runOnce net loadHtml resolve stringifyYaml targetUrl mode shared prompted
      flag cs nz = .fetchFailed ("Failed to fetch page: " ++ e) := by
    simp [runOnce, hf]
  exact ⟨hr, by simp [hr, RunOutcome.producesArtifact], hf, rfl⟩

/-- C9 (witness): a concrete dead transport. -/
theorem claim_C9_witness :
    runOnce netDown loadHtml0 resolveId stringify0 "https://site.example/" Mode.css none
        "My Site" true [] false =
      RunOutcome.fetchFailed "Failed to fetch page: ECONNREFUSED" ∧
    (runOnce netDown loadHtml0 resolveId stringify0 "https://site.example/" Mode.css none
        "My Site" true [] false).producesArtifact = false ∧
    fetchPage netDown "https://site.example/" =
      .error "Failed to fetch page: ECONNREFUSED" ∧
    fetchPageAttempts "https://site.example/" = ["https://site.example/"] :=
  claim_C9_thm netDown loadHtml0 resolveId stringify0 "https://site.example/" Mode.css
    none "My Site" true [] false "ECONNREFUSED" rfl

/-! ## C6: empty selection is a clean early exit -/

/-- C6: the pipeline's Selection Gate stage maps an empty discovered list
to an empty approved list without awaiting the external checkbox service;
and whenever the gate's approved result is empty, the run ends in one of
the two informational outcomes, produces no artifact, and is not an
error. -/
theorem claim_C6_thm :
    (∀ (includeAllFlag : Bool) (serviceChoices : List Nat),
      gateStage [] includeAllFlag serviceChoices = ([], false)) ∧
    (∀ (net : String → Except String String) (loadHtml : String → List Element)
      (resolve : String → String → String)
      (stringifyYaml : List (String × TopVal) → String) (targetUrl : String)
      (mode : Mode) (sharedVisibleName : Option String) (promptedName : String)
      (includeAllFlag : Bool) (serviceChoices : List Nat) (noZipFlag : Bool)
      (html : String),
      net targetUrl = .ok html →
      promptSelection (parseResources resolve (loadHtml html) targetUrl mode)
          includeAllFlag serviceChoices = [] →
      (runOnce net loadHtml resolve stringifyYaml targetUrl mode sharedVisibleName
            promptedName includeAllFlag serviceChoices noZipFlag =
          RunOutcome.noResources ∨
        runOnce net loadHtml resolve stringifyYaml targetUrl mode sharedVisibleName
            promptedName includeAllFlag serviceChoices noZipFlag =
          RunOutcome.nothingSelected) ∧
      (runOnce net loadHtml resolve stringifyYaml targetUrl mode sharedVisibleName
          promptedName includeAllFlag serviceChoices noZipFlag).producesArtifact =
        false ∧
      (runOnce net loadHtml resolve stringifyYaml targetUrl mode sharedVisibleName
          promptedName includeAllFlag serviceChoices noZipFlag).isError = false) := by
  constructor
  · intro flag cs
    rfl
  · intro net loadHtml resolve sy targetUrl mode shared prompted flag cs nz html h1 h2
    have hf : fetchPage net targetUrl = .ok html := by simp [fetchPage, h1]
    by_cases hfound : (parseResources resolve (loadHtml html) targetUrl mode).length = 0
    · have hr : runOnce net loadHtml resolve sy targetUrl mode shared prompted flag cs
          nz = RunOutcome.noResources := by
        simp [runOnce, hf, hfound]
      exact ⟨Or.inl hr, by simp [hr, RunOutcome.producesArtifact],
        by simp [hr, RunOutcome.isError]⟩
    · have hr : runOnce net loadHtml resolve sy targetUrl mode shared prompted flag cs
          nz = RunOutcome.nothingSelected := by
        simp [runOnce, hf, hfound, h2]
      exact ⟨Or.inr hr, by simp [hr, RunOutcome.producesArtifact],
        by simp [hr, RunOutcome.isError]⟩

/-- C6 (witness): an empty document with an auto-approve flag — nothing is
discovered, nothing selected, the run ends informationally. -/
theorem claim_C6_witness :
    (runOnce netPartial loadHtml0 resolveId stringify0 "https://site.example/" Mode.css
          none "My Site" true [] false =
        RunOutcome.noResources ∨
      runOnce netPartial loadHtml0 resolveId stringify0 "https://site.example/" Mode.css
          none "My Site" true [] false =
        RunOutcome.nothingSelected) ∧
    (runOnce netPartial loadHtml0 resolveId stringify0 "https://site.example/" Mode.css
        none "My Site" true [] false).producesArtifact = false ∧
    (runOnce netPartial loadHtml0 resolveId stringify0 "https://site.example/" Mode.css
        none "My Site" true [] false).isError = false :=
  claim_C6_thm.2 netPartial loadHtml0 resolveId stringify0 "https://site.example/"
    Mode.css none "My Site" true [] false "<html></html>" rfl rfl

/-! ## C5: selection as an order question -/

theorem getD_shift {α : Type} (dflt : α) (r : α) (rs : List α) (cs : List Nat)
    (hpos : ∀ j ∈ cs, 0 < j) :
    cs.map (fun i => (r :: rs).getD i dflt) =
      (cs.map (fun i => i - 1)).map (fun i => rs.getD i dflt) := by
  rw [List.map_map]
  apply List.map_congr_left
  intro j hj
  have hp := hpos j hj
  cases j with
  | zero => exact absurd hp (lt_irrefl 0)
  | succ n => simp [Function.comp]

theorem sorted_getD_sublist {α : Type} (dflt : α) :
    ∀ (rs : List α) (cs : List Nat), cs.Pairwise (· < ·) →
      (∀ i ∈ cs, i < rs.length) →
      (cs.map (fun i => rs.getD i dflt)).Sublist rs := by
  intro rs
  induction rs with
  | nil =>
    intro cs _ hbound
    cases cs with
    | nil => simp
    | cons c cs' => exact absurd (hbound c (List.mem_cons_self c cs')) (by simp)
  | cons r rs' ih =>
    intro cs hpw hbound
    cases cs with
    | nil => simp
    | cons c cs' =>
      cases c with
      | zero =>
        have hpos : ∀ j ∈ cs', 0 < j := fun j hj => (List.pairwise_cons.mp hpw).1 j hj
        simp only [List.map_cons, List.getD_cons_zero]
        refine List.Sublist.cons₂ r ?_
        rw [getD_shift dflt r rs' cs' hpos]
        apply ih
        · rw [List.pairwise_map]
          exact ((List.pairwise_cons.mp hpw).2).imp_of_mem
            (fun {a b} ha hb hab => by have := hpos a ha; omega)
        · intro i hi
          rcases List.mem_map.mp hi with ⟨j, hj, rfl⟩
          have hb := hbound j (List.mem_cons_of_mem 0 hj)
          have hp := hpos j hj
          simp only [List.length_cons] at hb
          omega
      | succ n =>
        have hpos : ∀ j ∈ ((n + 1) :: cs'), 0 < j := by
          intro j hj
          rcases List.mem_cons.mp hj with rfl | hj'
          · omega
          · have := (List.pairwise_cons.mp hpw).1 j hj'
            omega
        refine List.Sublist.cons r ?_
        rw [getD_shift dflt r rs' ((n + 1) :: cs') hpos]
        apply ih
        · rw [List.pairwise_map]
          exact hpw.imp_of_mem (fun {a b} ha hb hab => by have := hpos a ha; omega)
        · intro i hi
          rcases List.mem_map.mp hi with ⟨j, hj, rfl⟩
          have hb := hbound j hj
          have hp := hpos j hj
          simp only [List.length_cons] at hb
          omega

/-- C5 (counterexample): `promptSelection` maps the service's chosen
indices back in the order the service reports them — when the service
reports `[1, 0]`, the output reverses discovery order and is not an
order-preserving subsequence of the input. -/
theorem claim_C5_counterexample :
    promptSelection [resA, resB] false [1, 0] = [resB, resA] ∧
    ¬(promptSelection [resA, resB] false [1, 0]).Sublist [resA, resB] := by
  decide

/-- C5 (amended): the gate's output follows discovery order provided the
selection service reports the chosen indices in ascending (display)
order, as the real checkbox service does: for every discovered list and
every strictly ascending in-range index reply, the output is an
order-preserving subsequence of the input; with the auto-approve flag the
input is returned unchanged. -/
theorem claim_C5_thm :
    ∀ (resources : List Resource) (includeAllFlag : Bool) (serviceChoices : List Nat),
      (includeAllFlag = true →
        promptSelection resources includeAllFlag serviceChoices = resources) ∧
      (serviceChoices.Pairwise (· < ·) →
        (∀ i ∈ serviceChoices, i < resources.length) →
        (promptSelection resources includeAllFlag serviceChoices).Sublist resources) := by
  intro rs flag cs
  constructor
  · intro h
    subst h
    rfl
  · intro hpw hbound
    cases flag with
    | true =>
      simp only [promptSelection, if_true]
      exact List.Sublist.refl rs
    | false =>
      by_cases hcs : cs.length = 0
      · have : cs = [] := List.length_eq_zero.mp hcs
        subst this
        simp [promptSelection]
      · simp only [promptSelection, Bool.false_eq_true, if_false, hcs, ite_false]
        exact sorted_getD_sublist dfltResource rs cs hpw hbound

/-- C5 (witness): ascending service reply `[0, 2]` over three discovered
resources, and the auto-approve path. -/
theorem claim_C5_witness :
    promptSelection [resA, resB, resC] true [1, 0] = [resA, resB, resC] ∧
    (promptSelection [resA, resB, resC] false [0, 2]).Sublist [resA, resB, resC] :=
  ⟨(claim_C5_thm [resA, resB, resC] true [1, 0]).1 rfl,
    (claim_C5_thm [resA, resB, resC] false [0, 2]).2 (by decide) (by decide)⟩

/-! ## C3: discovery order and skip rules -/

theorem parseCssList_no_match (resolve : String → String → String) (baseUrl : String) :
    ∀ (doc : List Element) (counter : Nat),
      (∀ el ∈ doc, matchesCssSelector el = false) →
      parseCssList resolve baseUrl doc counter = [] := by
  intro doc
  induction doc with
  | nil => intro counter _; rfl
  | cons el rest ih =>
    intro counter h
    have hel := h el (List.mem_cons_self el rest)
    simp [parseCssList, hel, ih counter (fun d hd => h d (List.mem_cons_of_mem el hd))]

theorem parseJsList_no_match (resolve : String → String → String) (baseUrl : String) :
    ∀ (doc : List Element) (counter : Nat),
      (∀ el ∈ doc, (el.tagName == "script") = false) →
      parseJsList resolve baseUrl doc counter = [] := by
  intro doc
  induction doc with
  | nil => intro counter _; rfl
  | cons el rest ih =>
    intro counter h
    have hel := h el (List.mem_cons_self el rest)
    simp [parseJsList, hel, ih counter (fun d hd => h d (List.mem_cons_of_mem el hd))]

theorem parseCssList_append (resolve : String → String → String) (baseUrl : String) :
    ∀ (xs ys : List Element) (counter : Nat),
      parseCssList resolve baseUrl (xs ++ ys) counter =
        parseCssList resolve baseUrl xs counter ++
          parseCssList resolve baseUrl ys (counter + countCssInline xs) := by
  intro xs
  induction xs with
  | nil =>
    intro ys counter
    simp [parseCssList, countCssInline]
  | cons el xs' ih =>
    intro ys counter
    by_cases hm : matchesCssSelector el = true
    · by_cases hl : (el.tagName == "link") = true
      · have hcount : countCssInline (el :: xs') = countCssInline xs' := by
          simp [countCssInline, List.countP_cons, hl]
        by_cases hh : strTruthy (getAttr el "href") = true
        · simp only [List.cons_append, List.append_eq, parseCssList, hm, hl, hh, if_true, hcount]
          rw [ih]
        · simp only [List.cons_append, List.append_eq, parseCssList, hm, hl, hh, if_true,
            Bool.false_eq_true, if_false, hcount]
          rw [ih]
      · have hcount : countCssInline (el :: xs') = countCssInline xs' + 1 := by
          simp [countCssInline, List.countP_cons, hm, hl]
        have harith : counter + 1 + countCssInline xs' =
            counter + (countCssInline xs' + 1) := by omega
        simp only [List.cons_append, List.append_eq, parseCssList, hm, hl, if_true, Bool.false_eq_true,
          if_false, hcount]
        rw [ih, harith]
    · have hcount : countCssInline (el :: xs') = countCssInline xs' := by
        simp [countCssInline, List.countP_cons, hm]
      simp only [List.cons_append, List.append_eq, parseCssList, hm, Bool.false_eq_true, if_false, hcount]
      rw [ih]

theorem parseJsList_append (resolve : String → String → String) (baseUrl : String) :
    ∀ (xs ys : List Element) (counter : Nat),
      parseJsList resolve baseUrl (xs ++ ys) counter =
        parseJsList resolve baseUrl xs counter ++
          parseJsList resolve baseUrl ys (counter + countJsInline xs) := by
  intro xs
  induction xs with
  | nil =>
    intro ys counter
    simp [parseJsList, countJsInline]
  | cons el xs' ih =>
    intro ys counter
    by_cases hs : (el.tagName == "script") = true
    · by_cases hsrc : strTruthy (getAttr el "src") = true
      · have hcount : countJsInline (el :: xs') = countJsInline xs' := by
          simp [countJsInline, List.countP_cons, hsrc]
        simp only [List.cons_append, List.append_eq, parseJsList, hs, hsrc, if_true, hcount]
        rw [ih]
      · by_cases hb : blank el.innerHtml = true
        · have hcount : countJsInline (el :: xs') = countJsInline xs' := by
            simp [countJsInline, List.countP_cons, hb]
          simp only [List.cons_append, List.append_eq, parseJsList, hs, hsrc, hb, if_true,
            Bool.false_eq_true, if_false, hcount]
          rw [ih]
        · have hcount : countJsInline (el :: xs') = countJsInline xs' + 1 := by
            simp [countJsInline, List.countP_cons, hs, hsrc, hb]
          have harith : counter + 1 + countJsInline xs' =
              counter + (countJsInline xs' + 1) := by omega
          simp only [List.cons_append, List.append_eq, parseJsList, hs, hsrc, hb, if_true,
            Bool.false_eq_true, if_false, hcount]
          rw [ih, harith]
    · have hcount : countJsInline (el :: xs') = countJsInline xs' := by
        simp [countJsInline, List.countP_cons, hs]
      simp only [List.cons_append, List.append_eq, parseJsList, hs, Bool.false_eq_true, if_false, hcount]
      rw [ih]

/-- C3 (counterexample): a `<script>` whose `src` attribute is present but
empty and whose body is non-blank is *not* skipped — the discoverer emits
it as an inline reference. -/
theorem claim_C3_counterexample :
    parseResources resolveId [scriptEmptySrc] "https://x" Mode.js =
      [Resource.inline "<script> inline #1" "alert(1)"] ∧
    parseResources resolveId [scriptEmptySrc] "https://x" Mode.js ≠ [] := by
  decide

/-- C3 (amended): the discoverer emits references in document order of the
matching elements (output over a concatenated document is the
concatenation of the outputs, with the inline counter advanced); a link
element whose `href` is missing or empty is skipped without error; a
script element whose `src` is missing or empty falls through to the
inline rule — emitted as inline iff its content is non-blank after
trimming; an inline `<style>` is always emitted even when blank; and when
no elements match, the result is an empty sequence, never an error. -/
theorem claim_C3_thm :
    ∀ (resolve : String → String → String) (baseUrl : String),
      (∀ doc : List Element, (∀ el ∈ doc, matchesCssSelector el = false) →
        parseResources resolve doc baseUrl Mode.css = []) ∧
      (∀ doc : List Element, (∀ el ∈ doc, (el.tagName == "script") = false) →
        parseResources resolve doc baseUrl Mode.js = []) ∧
      (∀ (el : Element) (rest : List Element) (counter : Nat),
        el.tagName = "link" → strTruthy (getAttr el "href") = false →
        parseCssList resolve baseUrl (el :: rest) counter =
          parseCssList resolve baseUrl rest counter) ∧
      (∀ (attrs : List (String × String)) (content : String) (rest : List Element)
        (counter : Nat),
        parseCssList resolve baseUrl (⟨"style", attrs, content⟩ :: rest) counter =
          Resource.inline ("<style> inline #" ++ toString counter) content ::
            parseCssList resolve baseUrl rest (counter + 1)) ∧
      (∀ (el : Element) (rest : List Element) (counter : Nat),
        el.tagName = "script" → strTruthy (getAttr el "src") = false →
        parseJsList resolve baseUrl (el :: rest) counter =
          (if blank el.innerHtml then parseJsList resolve baseUrl rest counter
            else
              Resource.inline ("<script> inline #" ++ toString counter) el.innerHtml ::
                parseJsList resolve baseUrl rest (counter + 1))) ∧
      (∀ (xs ys : List Element) (counter : Nat),
        parseCssList resolve baseUrl (xs ++ ys) counter =
          parseCssList resolve baseUrl xs counter ++
            parseCssList resolve baseUrl ys (counter + countCssInline xs)) ∧
      (∀ (xs ys : List Element) (counter : Nat),
        parseJsList resolve baseUrl (xs ++ ys) counter =
          parseJsList resolve baseUrl xs counter ++
            parseJsList resolve baseUrl ys (counter + countJsInline xs)) := by
  intro resolve baseUrl
  refine ⟨?_, ?_, ?_, ?_, ?_, parseCssList_append resolve baseUrl,
    parseJsList_append resolve baseUrl⟩
  · intro doc h
    exact parseCssList_no_match resolve baseUrl doc 1 h
  · intro doc h
    exact parseJsList_no_match resolve baseUrl doc 1 h
  · intro el rest counter htag hhref
    by_cases hm : matchesCssSelector el = true
    · simp [parseCssList, hm, htag, hhref]
    · simp [parseCssList, hm]
  · intro attrs content rest counter
    simp [parseCssList, matchesCssSelector]
  · intro el rest counter htag hsrc
    simp [parseJsList, htag, hsrc]

/-- C3 (witness): the skip rules and order property of `claim_C3_thm`
evaluated at concrete elements. -/
theorem claim_C3_witness :
    parseCssList resolveId "https://x"
        [Element.mk "link" [("rel", "stylesheet")] "", Element.mk "style" [] ""] 1 =
      parseCssList resolveId "https://x" [Element.mk "style" [] ""] 1 ∧
    parseResources resolveId [Element.mk "div" [] "hi"] "https://x" Mode.css = [] ∧
    parseJsList resolveId "https://x" [Element.mk "script" [] "  "] 4 =
      (if blank "  " then parseJsList resolveId "https://x" [] 4
        else Resource.inline ("<script> inline #" ++ toString 4) "  " ::
          parseJsList resolveId "https://x" [] 5) :=
  ⟨(claim_C3_thm resolveId "https://x").2.2.1 (Element.mk "link" [("rel", "stylesheet")] "")
      [Element.mk "style" [] ""] 1 rfl rfl,
    (claim_C3_thm resolveId "https://x").1 [Element.mk "div" [] "hi"] (by decide),
    (claim_C3_thm resolveId "https://x").2.2.2.2.1 (Element.mk "script" [] "  ") [] 4 rfl
      rfl⟩

/-! ## C2: resolution order, fragments and merge -/

theorem fillSlots_foldl_getElem? (frags : List String) (j : Nat) :
    ∀ (order : List Nat) (acc : List String), j < acc.length →
      (order.foldl (fun acc i => acc.set i (frags.getD i "")) acc)[j]? =
        if j ∈ order then some (frags.getD j "") else acc[j]? := by
  intro order
  induction order with
  | nil =>
    intro acc hj
    simp
  | cons i rest ih =>
    intro acc hj
    rw [List.foldl_cons, ih (acc.set i (frags.getD i ""))
      (by simpa [List.length_set] using hj)]
    by_cases hmem : j ∈ rest
    · rw [if_pos hmem, if_pos (List.mem_cons_of_mem i hmem)]
    · rw [if_neg hmem]
      by_cases hij : j = i
      · subst hij
        rw [List.getElem?_set_self hj, if_pos (List.mem_cons_self j rest)]
      · rw [List.getElem?_set_ne (fun h => hij h.symm),
          if_neg (by simp [List.mem_cons, hij, hmem])]

theorem fillSlots_foldl_length (frags : List String) :
    ∀ (order : List Nat) (acc : List String),
      (order.foldl (fun acc i => acc.set i (frags.getD i "")) acc).length = acc.length := by
  intro order
  induction order with
  | nil => intro acc; rfl
  | cons i rest ih =>
    intro acc
    rw [List.foldl_cons, ih, List.length_set]

theorem fillSlots_eq (n : Nat) (frags : List String) (order : List Nat)
    (hlen : frags.length = n) (hmem : ∀ i, i < n → i ∈ order) :
    fillSlots n frags order = frags := by
  apply List.ext_getElem?
  intro i
  by_cases hi : i < n
  · rw [fillSlots, fillSlots_foldl_getElem? frags i order (List.replicate n "")
      (by simpa using hi)]
    rw [if_pos (hmem i hi), List.getElem?_eq_getElem (by omega)]
    rw [List.getD_eq_getElem?_getD, List.getElem?_eq_getElem (by omega)]
    rfl
  · have h1 : (fillSlots n frags order).length = n := by
      rw [fillSlots, fillSlots_foldl_length]
      simp
    rw [List.getElem?_eq_none (by omega), List.getElem?_eq_none (by omega)]

/-- C2: resolution followed by the merge produces exactly one fragment per
approved reference, in input order and independent of the order in which
the concurrent fetches settle (filling the result slots in any completion
order that covers every index reproduces the fragment list); every
non-failed fragment is prefixed by the comment header restating its
source label, a failed external fetch contributes the empty string (no
placeholder text), and the merge joins the fragments with a blank line
between entries. -/
theorem claim_C2_thm :
    ∀ (net : String → Except String String) (rs : List Resource),
      (∀ r ∈ rs, labelMatchesUrl r = true) →
      (downloadFragments net rs).length = rs.length ∧
      (∀ order : List Nat,
        (∀ i ∈ order, i < rs.length) → (∀ i, i < rs.length → i ∈ order) →
        fillSlots rs.length (downloadFragments net rs) order =
          downloadFragments net rs) ∧
      (∀ i, i < rs.length →
        (downloadFragments net rs).getD i "" =
          resolveOne net (rs.getD i dfltResource) ∧
        (fetchFails net (rs.getD i dfltResource) = true →
          (downloadFragments net rs).getD i "" = "") ∧
        (fetchFails net (rs.getD i dfltResource) = false →
          ∃ t : String,
            (downloadFragments net rs).getD i "" =
              "/* " ++ (rs.getD i dfltResource).label ++ " */\n" ++ t)) ∧
      downloadResources net [] = "" ∧
      (∀ r : Resource, downloadResources net [r] = resolveOne net r) ∧
      (∀ (r r2 : Resource) (rest : List Resource),
        downloadResources net (r :: r2 :: rest) =
          resolveOne net r ++ "\n\n" ++ downloadResources net (r2 :: rest)) := by
  intro net rs hwf
  refine ⟨by simp [downloadFragments], ?_, ?_, rfl, fun r => rfl, fun r r2 rest => rfl⟩
  · intro order hbound hmem
    exact fillSlots_eq rs.length (downloadFragments net rs) order
      (by simp [downloadFragments]) hmem
  · intro i hi
    have hmemi : rs.getD i dfltResource ∈ rs := by
      rw [List.getD_eq_getElem?_getD, List.getElem?_eq_getElem hi]
      exact List.getElem_mem hi
    have hfrag : (downloadFragments net rs).getD i "" =
        resolveOne net (rs.getD i dfltResource) := by
      unfold downloadFragments
      rw [List.getD_eq_getElem?_getD, List.getD_eq_getElem?_getD, List.getElem?_map,
        List.getElem?_eq_getElem hi]
      rfl
    refine ⟨hfrag, ?_, ?_⟩
    · intro hfail
      rw [hfrag]
      cases hres : rs.getD i dfltResource with
      | external l u =>
        rw [hres] at hfail
        cases hnet : net u with
        | ok body =>
          rw [fetchFails, hnet] at hfail
          exact absurd hfail (by simp)
        | error e => simp [resolveOne, hnet]
      | inline l c =>
        rw [hres, fetchFails] at hfail
        exact absurd hfail (by simp)
    · intro hok
      rw [hfrag]
      cases hres : rs.getD i dfltResource with
      | external l u =>
        have hlu : l = u := by
          have := hwf (rs.getD i dfltResource) hmemi
          rw [hres] at this
          simpa [labelMatchesUrl] using this
        rw [hres] at hok
        cases hnet : net u with
        | ok body =>
          refine ⟨body, ?_⟩
          simp [resolveOne, hnet, Resource.label, hlu]
        | error e =>
          rw [fetchFails, hnet] at hok
          exact absurd hok (by simp)
      | inline l c =>
        exact ⟨c, by simp [resolveOne, Resource.label]⟩

/-- C2 (witness): three concrete references (a fetchable external, an
inline, a failing external) with completion order `[2, 0, 1]`. -/
theorem claim_C2_witness :
    fillSlots 3 (downloadFragments netPartial [resA, resC, resB]) [2, 0, 1] =
      downloadFragments netPartial [resA, resC, resB] ∧
    (downloadFragments netPartial [resA, resC, resB]).getD 2 "" = "" :=
  ⟨(claim_C2_thm netPartial [resA, resC, resB] (by decide)).2.1 [2, 0, 1] (by decide)
      (by decide),
    ((claim_C2_thm netPartial [resA, resC, resB] (by decide)).2.2.1 2 (by decide)).2.1
      (by decide)⟩

/-! ## C4: per-resource fetch failure is tolerated -/

theorem external_not_mem_promptSelection_nil (flag : Bool) (cs : List Nat)
    (l u : String) : Resource.external l u ∉ promptSelection [] flag cs := by
  intro h
  cases flag with
  | true => simp [promptSelection] at h
  | false =>
    by_cases hcs : cs.length = 0
    · simp [promptSelection, hcs] at h
    · simp only [promptSelection, Bool.false_eq_true, if_false, hcs, ite_false] at h
      rcases List.mem_map.mp h with ⟨i, _, heq⟩
      simp [dfltResource] at heq

/-- C4: when an approved external reference's fetch fails, the resolve
step as a whole still succeeds — the failed resource yields the empty
fragment (contributing nothing to the merged content), the corresponding
warning is surfaced, and the run still produces its artifact. -/
theorem claim_C4_thm :
    ∀ (net : String → Except String String) (loadHtml : String → List Element)
      (resolve : String → String → String)
      (stringifyYaml : List (String × TopVal) → String) (targetUrl : String)
      (mode : Mode) (sharedVisibleName : Option String) (promptedName : String)
      (includeAllFlag : Bool) (serviceChoices : List Nat) (noZipFlag : Bool)
      (html lbl url e : String),
      net targetUrl = .ok html →
      Resource.external lbl url ∈
        promptSelection (parseResources resolve (loadHtml html) targetUrl mode)
          includeAllFlag serviceChoices →
      net url = .error e →
      (runOnce net loadHtml resolve stringifyYaml targetUrl mode sharedVisibleName
          promptedName includeAllFlag serviceChoices noZipFlag).producesArtifact =
        true ∧
      resolveOne net (Resource.external lbl url) = "" ∧
      ("Failed to load " ++ url ++ ": " ++ e) ∈
        warnings net
          (promptSelection (parseResources resolve (loadHtml html) targetUrl mode)
            includeAllFlag serviceChoices) := by
  intro net loadHtml resolve sy targetUrl mode shared prompted flag cs nz html lbl url e
    h1 h3 h4
  have hf : fetchPage net targetUrl = .ok html := by simp [fetchPage, h1]
  by_cases hfound : (parseResources resolve (loadHtml html) targetUrl mode).length = 0
  · exfalso
    rw [List.length_eq_zero.mp hfound] at h3
    exact external_not_mem_promptSelection_nil flag cs lbl url h3
  · have hsel : ¬(promptSelection (parseResources resolve (loadHtml html) targetUrl mode)
        flag cs).length = 0 := by
      intro h0
      rw [List.length_eq_zero.mp h0] at h3
      exact absurd h3 (List.not_mem_nil _)
    refine ⟨?_, by simp [resolveOne, h4], ?_⟩
    · simp [runOnce, hf, hfound, hsel, RunOutcome.producesArtifact]
    · exact List.mem_filterMap.mpr ⟨Resource.external lbl url, h3, by simp [h4]⟩

/-- C4 (witness): a page with one stylesheet link whose fetch 404s — the
fragment is empty, the warning is emitted, the artifact is still
produced. -/
theorem claim_C4_witness :
    (runOnce netPartial loadHtmlFail resolveId stringify0 "https://site.example/"
        Mode.css (some "My Site") "" true [] false).producesArtifact = true ∧
    resolveOne netPartial (Resource.external "https://b.css" "https://b.css") = "" ∧
    ("Failed to load " ++ "https://b.css" ++ ": " ++ "404") ∈
      warnings netPartial
        (promptSelection
          (parseResources resolveId (loadHtmlFail "<html></html>")
            "https://site.example/" Mode.css) true []) :=
  claim_C4_thm netPartial loadHtmlFail resolveId stringify0 "https://site.example/"
    Mode.css (some "My Site") "" true [] false "<html></html>" "https://b.css"
    "https://b.css" "404" rfl (by decide) rfl
